import Mathlib

/-!
Verification of the Bayesian-optimization core in `src/python/gp.py`
(functions `expected_improvement` and `generate_parameters`).

Modelling conventions (shallow embedding):
* Python floats are modelled as real numbers `ℝ`; the single place where a
  float NaN is behaviourally relevant (the `res.fun < min_val` comparison in
  the restart loop) uses the type `PyVal` whose `nan` constructor compares
  false against everything, as IEEE NaN does.
* NumPy arrays are lists (`List ℝ` for vectors, `List (List ℝ)` for
  matrices).  The broadcasting that actually occurs in
  `expected_improvement` is reproduced literally: `mu` and `imp` have shape
  `(m,)`, `sigma` is reshaped to `(m, 1)`, hence `Z = imp / sigma` and `ei`
  broadcast to an `(m, m)` matrix whose entry `[i][j]` is built from
  `sigma[i]` and `imp[j]`.  The boolean mask `sigma == 0.0` has shape
  `(m, 1)` and matches `ei` only when `m = 1`; for any other `m` NumPy
  raises an `IndexError`, modelled by the result `none`.
* Exceptions are modelled with `Option`/`Except`: `none` / `.error` means
  the Python call raises.
* The external collaborators (the sklearn `GaussianProcessRegressor`, the
  scipy `minimize` routine, and `np.random.uniform`) are out of scope per
  the specification and enter as explicit parameters: a fitted surrogate is
  a pair of prediction functions, `fit` produces one, `minimize` may raise
  (`Except Unit`), and `rand i j` is the value drawn by the process-wide
  random generator for restart `i`, coordinate `j` (its `[low, high)` range
  contract becomes a hypothesis where a claim needs it).
-/

open MeasureTheory

/-- Density of the standard normal distribution (`scipy.stats.norm.pdf`). -/
noncomputable def normPdf (z : ℝ) : ℝ :=
  Real.exp (-(z ^ 2) / 2) / Real.sqrt (2 * Real.pi)

/-- Cumulative distribution function of the standard normal distribution
(`scipy.stats.norm.cdf`). -/
noncomputable def normCdf (z : ℝ) : ℝ :=
  ∫ t in Set.Iic z, normPdf t

/-- Closed-form expected-improvement entry
`imp * norm.cdf(Z) + sigma * norm.pdf(Z)` with `Z = imp / sigma`, for one
standard deviation `s` and one improvement margin `i` (one scalar entry of
the broadcast expression in `expected_improvement`). -/
noncomputable def eiFun (s i : ℝ) : ℝ :=
  i * normCdf (i / s) + s * normPdf (i / s)

/-- Fitted surrogate model: the prediction interface of an
`sklearn.gaussian_process.GaussianProcessRegressor` after `fit`, i.e.
`gpr.predict(x, return_std=True) = (predictMean x, predictStd x)`. -/
structure Surrogate where
  predictMean : List ℝ → ℝ
  predictStd : List ℝ → ℝ

/-- Maximum of a NumPy array (`np.max`): raises a `ValueError` (here `none`)
on an empty array. -/
def npMax : List ℝ → Option ℝ
  | [] => none
  | x :: xs => some (xs.foldl max x)

/-- Shallow embedding of `expected_improvement(X, X_obs, Y_obs, gpr, xi)`
from `src/python/gp.py`.

`mu = gpr.predict(X)` has shape `(m,)` (the fitted `y` is one-dimensional),
`sigma` is reshaped to `(m, 1)`, and `mu_sample_opt = np.max(mu_sample)`
(raising on empty `X_obs`).  Then `imp = mu - mu_sample_opt - xi` has shape
`(m,)`, so `Z = imp / sigma` and
`ei = imp * norm.cdf(Z) + sigma * norm.pdf(Z)` broadcast to shape `(m, m)`
with `ei[i][j]` built from `sigma[i]` and `imp[j]`.  The final masked
assignment `ei[sigma == 0.0] = 0.0` uses a boolean index of shape `(m, 1)`,
which matches `ei` only when `m = 1`; otherwise NumPy raises an
`IndexError`, modelled as `none`.  `Y_obs` is received but never read. -/
noncomputable def expected_improvement (X X_obs : List (List ℝ)) (Y_obs : List ℝ)
    (gpr : Surrogate) (xi : ℝ) : Option (List (List ℝ)) :=
  let mu := X.map gpr.predictMean
  let sigma := X.map gpr.predictStd
  match npMax (X_obs.map gpr.predictMean) with
  | none => none
  | some mu_sample_opt =>
    let imp := mu.map (fun m => m - mu_sample_opt - xi)
    let ei := sigma.map (fun s => imp.map (fun i => eiFun s i))
    if X.length = 1 then
      some (List.zipWith
        (fun s row => if s = 0 then row.map (fun _ => (0 : ℝ)) else row)
        sigma ei)
    else none

/-- Value of the objective reported by the local optimizer (`res.fun`),
as a Python float: either NaN or a real number.  IEEE comparisons against
NaN are false, which `PyVal.lt` reproduces. -/
inductive PyVal where
  | nan : PyVal
  | val : ℝ → PyVal

/-- Python `<` on objective values: any comparison involving NaN is false. -/
def PyVal.lt : PyVal → PyVal → Prop
  | .val a, .val b => a < b
  | _, _ => False

/-- Result of `scipy.optimize.minimize`: the minimizing point `res.x` and
the objective value `res.fun` there.  (`res.fun` is in truth a length-1
array — the source reads `res.fun[0]` — but its only use is as a scalar,
so it is modelled as one.) -/
structure OptResult where
  x : List ℝ
  fval : PyVal

/-- Errors the candidate proposer can surface to its caller.
`noCandidateFound` is the explicit signal the specification mandates when
every restart fails; `attributeError` is the Python `AttributeError` raised
by `min_x.tolist()` when `min_x` is still `None`; `optimizerException` is a
propagated exception from a `minimize` call. -/
inductive GPError where
  | noCandidateFound : GPError
  | attributeError : GPError
  | optimizerException : GPError
deriving DecidableEq

/-- NumPy `v.reshape(-1, d)`: splits a flat vector into consecutive rows of
length `d` (total length is a multiple of `d` on every call site). -/
def reshapeRows (d : ℕ) (v : List ℝ) : List (List ℝ) :=
  if h : d = 0 ∨ v.length = 0 then []
  else v.take d :: reshapeRows d (v.drop d)
termination_by v.length
decreasing_by
  push_neg at h
  simp only [List.length_drop]
  omega

/-- Fixed number of restarts of the local optimizer (`n_restarts = 25`). -/
def n_restarts : ℕ := 25

/-- Largest finite double (`sys.float_info.max`), the initial value of
`min_val` in the restart loop. -/
noncomputable def floatMax : ℝ := 2 ^ 1024 - 2 ^ 971

/-- Random restart starting points: row `i` of
`np.random.uniform(bs[:, 0], bs[:, 1], size=(n_restarts, dim))`, with
`rand i j` the value the process-wide generator draws for restart `i`,
coordinate `j`. -/
def restartStarts (rand : ℕ → ℕ → ℝ) (dim : ℕ) : List (List ℝ) :=
  (List.range n_restarts).map (fun i => (List.range dim).map (fun j => rand i j))

open Classical in
/-- Restart loop of `generate_parameters`: iterates over the starting
points, keeping `(min_val, min_x)`; a `minimize` call that raises aborts
the whole loop (there is no `try`/`except` in the source); a result with
`res.fun < min_val` updates the running best, any other result (including
a NaN objective, which compares false) is skipped. -/
noncomputable def restartLoop
    (minimize : (List ℝ → Option (List (List ℝ))) → List ℝ → List (ℝ × ℝ) →
      Except Unit OptResult)
    (min_obj : List ℝ → Option (List (List ℝ))) (bs : List (ℝ × ℝ)) :
    List (List ℝ) → PyVal → Option (List ℝ) →
      Except Unit (PyVal × Option (List ℝ))
  | [], min_val, min_x => .ok (min_val, min_x)
  | x0 :: rest, min_val, min_x =>
    match minimize min_obj x0 bs with
    | .error e => .error e
    | .ok res =>
      if PyVal.lt res.fval min_val then
        restartLoop minimize min_obj bs rest res.fval (some res.x)
      else
        restartLoop minimize min_obj bs rest min_val min_x

/-- Objective handed to the local optimizer in `generate_parameters`:
`min_obj(X) = -acquisition(X.reshape(-1, dim), Xs, Ys, gpr)` with
`dim = Xs.shape[1]`; an exception inside the acquisition propagates. -/
noncomputable def gpMinObj
    (acquisition : List (List ℝ) → List (List ℝ) → List ℝ → Surrogate →
      Option (List (List ℝ)))
    (Xs : List (List ℝ)) (Ys : List ℝ) (gpr : Surrogate) :
    List ℝ → Option (List (List ℝ)) := fun X =>
  (acquisition (reshapeRows (Xs.headD []).length X) Xs Ys gpr).map
    (List.map (List.map (fun v => -v)))

/-- Shallow embedding of
`generate_parameters(acquisition, X_obs, Y_obs, bounds)` from
`src/python/gp.py`.

`Xs.size == 0` is the total element count of `np.array(X_obs)`, i.e. the
sum of the row lengths; in that case a uniform random point in `bounds` is
returned without touching the surrogate or the acquisition function.
Otherwise the surrogate construction and fit
(`GaussianProcessRegressor(kernel=ConstantKernel(1.0) * Matern(length_scale=1.0, nu=2.5), alpha=0.2 ** 2)`
then `gpr.fit(Xs, Ys)`) is the collaborator call `fit Xs Ys`;
`min_obj(X) = -acquisition(X.reshape(-1, dim), Xs, Ys, gpr)`; and the
restart loop runs `minimize` from the 25 random starts, finishing with
`min_x.tolist()`, which raises an `AttributeError` when `min_x` is still
`None`. -/
noncomputable def generate_parameters
    (acquisition : List (List ℝ) → List (List ℝ) → List ℝ → Surrogate →
      Option (List (List ℝ)))
    (X_obs : List (List ℝ)) (Y_obs : List ℝ) (bounds : List (ℝ × ℝ))
    (fit : List (List ℝ) → List ℝ → Surrogate)
    (minimize : (List ℝ → Option (List (List ℝ))) → List ℝ → List (ℝ × ℝ) →
      Except Unit OptResult)
    (rand : ℕ → ℕ → ℝ) : Except GPError (List ℝ) :=
  let Xs := X_obs
  let Ys := Y_obs
  let bs := bounds
  if (Xs.map List.length).sum = 0 then
    .ok ((List.range bs.length).map (fun j => rand 0 j))
  else
    let gpr := fit Xs Ys
    let dim := (Xs.headD []).length
    let min_obj := gpMinObj acquisition Xs Ys gpr
    match restartLoop minimize min_obj bs (restartStarts rand dim)
        (.val floatMax) none with
    | .error _ => .error .optimizerException
    | .ok (_, none) => .error .attributeError
    | .ok (_, some min_x) => .ok min_x

/-- Membership of a candidate location in the axis-aligned search box:
coordinate `j` lies between the `j`-th lower and upper bound. -/
def InBounds (bounds : List (ℝ × ℝ)) (x : List ℝ) : Prop :=
  List.Forall₂ (fun b c => b.1 ≤ c ∧ c ≤ b.2) bounds x

/-! ### Analytic facts about the standard normal density and distribution -/

lemma normPdf_pos (z : ℝ) : 0 < normPdf z := by
  unfold normPdf
  apply div_pos (Real.exp_pos _)
  apply Real.sqrt_pos.mpr
  positivity

lemma normPdf_nonneg (z : ℝ) : 0 ≤ normPdf z := (normPdf_pos z).le

lemma continuous_normPdf : Continuous normPdf := by
  unfold normPdf
  fun_prop

lemma integrable_normPdf : MeasureTheory.Integrable normPdf := by
  have h : MeasureTheory.Integrable (fun x : ℝ => Real.exp (-2⁻¹ * x ^ 2)) :=
    integrable_exp_neg_mul_sq (by norm_num)
  have h2 := h.div_const (Real.sqrt (2 * Real.pi))
  have e : normPdf = fun x : ℝ => Real.exp (-2⁻¹ * x ^ 2) / Real.sqrt (2 * Real.pi) := by
    funext x
    unfold normPdf
    congr 2
    ring
  rw [e]
  exact h2

lemma normCdf_nonneg (z : ℝ) : 0 ≤ normCdf z := by
  unfold normCdf
  exact setIntegral_nonneg measurableSet_Iic (fun t _ => normPdf_nonneg t)

lemma normCdf_eq (z : ℝ) :
    normCdf z = normCdf 0 + ∫ t in (0:ℝ)..z, normPdf t := by
  have h : (∫ t in Set.Iic z, normPdf t) - ∫ t in Set.Iic (0:ℝ), normPdf t
      = ∫ t in (0:ℝ)..z, normPdf t :=
    intervalIntegral.integral_Iic_sub_Iic integrable_normPdf.integrableOn
      integrable_normPdf.integrableOn
  unfold normCdf
  linarith [h]

lemma hasDerivAt_normCdf (z : ℝ) : HasDerivAt normCdf (normPdf z) z := by
  have hI : IntervalIntegrable normPdf MeasureTheory.volume 0 z :=
    integrable_normPdf.intervalIntegrable
  have hd : HasDerivAt (fun u => ∫ t in (0:ℝ)..u, normPdf t) (normPdf z) z :=
    intervalIntegral.integral_hasDerivAt_right hI
      (continuous_normPdf.stronglyMeasurableAtFilter _ _)
      continuous_normPdf.continuousAt
  have e : normCdf = fun u => normCdf 0 + ∫ t in (0:ℝ)..u, normPdf t :=
    funext normCdf_eq
  rw [e]
  simpa using (hasDerivAt_const z (normCdf 0)).add hd

lemma hasDerivAt_normPdf (z : ℝ) : HasDerivAt normPdf (-z * normPdf z) z := by
  have h1 : HasDerivAt (fun t : ℝ => -(t ^ 2) / 2) (-z) z := by
    have h := ((hasDerivAt_pow 2 z).neg).div_const 2
    convert h using 1
    ring
  have h2 := (h1.exp).div_const (Real.sqrt (2 * Real.pi))
  have h3 : HasDerivAt normPdf
      (Real.exp (-(z ^ 2) / 2) * -z / Real.sqrt (2 * Real.pi)) z := h2
  convert h3 using 1
  unfold normPdf
  ring

lemma hasDerivAt_eiFun (s : ℝ) (hs : s ≠ 0) (i : ℝ) :
    HasDerivAt (fun t => eiFun s t) (normCdf (i / s)) i := by
  have hdiv : HasDerivAt (fun t : ℝ => t / s) (1 / s) i := (hasDerivAt_id i).div_const s
  have hPhi : HasDerivAt (fun t : ℝ => normCdf (t / s)) (normPdf (i / s) * (1 / s)) i :=
    (hasDerivAt_normCdf (i / s)).comp i hdiv
  have hphi : HasDerivAt (fun t : ℝ => normPdf (t / s))
      ((-(i / s) * normPdf (i / s)) * (1 / s)) i :=
    (hasDerivAt_normPdf (i / s)).comp i hdiv
  have hmul : HasDerivAt (fun t : ℝ => t * normCdf (t / s))
      (1 * normCdf (i / s) + i * (normPdf (i / s) * (1 / s))) i :=
    (hasDerivAt_id i).mul hPhi
  have hcl : HasDerivAt (fun t : ℝ => s * normPdf (t / s))
      (s * ((-(i / s) * normPdf (i / s)) * (1 / s))) i := hphi.const_mul s
  have hsum := hmul.add hcl
  have e : (fun t => eiFun s t)
      = fun t : ℝ => t * normCdf (t / s) + s * normPdf (t / s) := by
    funext t
    unfold eiFun
    ring
  rw [e]
  convert hsum using 1
  field_simp
  ring

lemma eiFun_monotone (s : ℝ) (hs : 0 < s) : Monotone (eiFun s) := by
  have hdiff : Differentiable ℝ (eiFun s) := fun i =>
    (hasDerivAt_eiFun s hs.ne' i).differentiableAt
  apply monotone_of_deriv_nonneg hdiff
  intro x
  rw [(hasDerivAt_eiFun s hs.ne' x).deriv]
  exact normCdf_nonneg _

/-! ### Behaviour of the restart loop -/

lemma PyVal.lt_val {a b : ℝ} : PyVal.lt (.val a) (.val b) ↔ a < b := Iff.rfl

lemma PyVal.not_lt_nan (b : PyVal) : ¬ PyVal.lt .nan b := by
  intro h
  cases b <;> exact h

lemma PyVal.ne_nan_of_lt {a b : PyVal} (h : PyVal.lt a b) : a ≠ .nan := by
  intro he
  subst he
  exact PyVal.not_lt_nan b h

lemma restartLoop_nil (minimize : (List ℝ → Option (List (List ℝ))) → List ℝ →
      List (ℝ × ℝ) → Except Unit OptResult)
    (min_obj : List ℝ → Option (List (List ℝ))) (bs : List (ℝ × ℝ))
    (b : PyVal) (s : Option (List ℝ)) :
    restartLoop minimize min_obj bs [] b s = .ok (b, s) := by
  simp only [restartLoop]

lemma restartLoop_cons_error (minimize : (List ℝ → Option (List (List ℝ))) → List ℝ →
      List (ℝ × ℝ) → Except Unit OptResult)
    (min_obj : List ℝ → Option (List (List ℝ))) (bs : List (ℝ × ℝ))
    (x0 : List ℝ) (rest : List (List ℝ)) (b : PyVal) (s : Option (List ℝ))
    (e : Unit) (hr : minimize min_obj x0 bs = .error e) :
    restartLoop minimize min_obj bs (x0 :: rest) b s = .error e := by
  simp only [restartLoop, hr]

open Classical in
lemma restartLoop_cons_ok (minimize : (List ℝ → Option (List (List ℝ))) → List ℝ →
      List (ℝ × ℝ) → Except Unit OptResult)
    (min_obj : List ℝ → Option (List (List ℝ))) (bs : List (ℝ × ℝ))
    (x0 : List ℝ) (rest : List (List ℝ)) (b : PyVal) (s : Option (List ℝ))
    (xr : List ℝ) (fr : PyVal) (hr : minimize min_obj x0 bs = .ok ⟨xr, fr⟩) :
    restartLoop minimize min_obj bs (x0 :: rest) b s =
      if PyVal.lt fr b then restartLoop minimize min_obj bs rest fr (some xr)
      else restartLoop minimize min_obj bs rest b s := by
  simp only [restartLoop, hr]

lemma restartLoop_noImprove (minimize : (List ℝ → Option (List (List ℝ))) → List ℝ →
      List (ℝ × ℝ) → Except Unit OptResult)
    (min_obj : List ℝ → Option (List (List ℝ))) (bs : List (ℝ × ℝ))
    (l : List (List ℝ)) (b : PyVal) (s : Option (List ℝ))
    (h : ∀ x0 ∈ l, ∃ r, minimize min_obj x0 bs = .ok r ∧ ¬ PyVal.lt r.fval b) :
    restartLoop minimize min_obj bs l b s = .ok (b, s) := by
  induction l with
  | nil => exact restartLoop_nil minimize min_obj bs b s
  | cons x0 t ih =>
    obtain ⟨r, hr, hnlt⟩ := h x0 (List.mem_cons_self x0 t)
    rw [restartLoop_cons_ok minimize min_obj bs x0 t b s r.x r.fval hr, if_neg hnlt]
    exact ih (fun y hy => h y (List.mem_cons_of_mem x0 hy))

lemma restartLoop_firstMin (minimize : (List ℝ → Option (List (List ℝ))) → List ℝ →
      List (ℝ × ℝ) → Except Unit OptResult)
    (min_obj : List ℝ → Option (List (List ℝ))) (bs : List (ℝ × ℝ))
    (l : List (List ℝ)) :
    ∀ (xv : ℕ → List ℝ) (fv : ℕ → ℝ) (b0 : ℝ) (s : Option (List ℝ)) (k : ℕ),
    (∀ i x0, l[i]? = some x0 → minimize min_obj x0 bs = .ok ⟨xv i, .val (fv i)⟩) →
    k < l.length → fv k < b0 →
    (∀ j, j < l.length → fv k ≤ fv j) →
    (∀ j, j < k → fv k < fv j) →
    restartLoop minimize min_obj bs l (.val b0) s = .ok (.val (fv k), some (xv k)) := by
  induction l with
  | nil =>
    intro xv fv b0 s k hm hk
    exact absurd hk (by simp)
  | cons x0 t ih =>
    intro xv fv b0 s k hm hk hkb hmin hfirst
    have hm0 : minimize min_obj x0 bs = .ok ⟨xv 0, .val (fv 0)⟩ := hm 0 x0 (by simp)
    rw [restartLoop_cons_ok minimize min_obj bs x0 t (.val b0) s (xv 0) (.val (fv 0)) hm0]
    cases k with
    | zero =>
      rw [if_pos (PyVal.lt_val.mpr hkb)]
      apply restartLoop_noImprove
      intro y hy
      obtain ⟨i, hi⟩ := List.mem_iff_getElem?.mp hy
      refine ⟨⟨xv (i + 1), .val (fv (i + 1))⟩, hm (i + 1) y (by simpa using hi), ?_⟩
      have hilen : i < t.length := (List.getElem?_eq_some.mp hi).1
      have hle : fv 0 ≤ fv (i + 1) := hmin (i + 1) (by simp only [List.length_cons]; omega)
      exact fun hlt => absurd (PyVal.lt_val.mp hlt) (not_lt.mpr hle)
    | succ k =>
      have h0 : fv (k + 1) < fv 0 := hfirst 0 (Nat.succ_pos k)
      have hk2 : k < t.length := by
        simp only [List.length_cons] at hk
        omega
      by_cases hc : fv 0 < b0
      · rw [if_pos (PyVal.lt_val.mpr hc)]
        exact ih (fun i => xv (i + 1)) (fun i => fv (i + 1)) (fv 0) (some (xv 0)) k
          (fun i y hi => hm (i + 1) y (by simpa using hi)) hk2 h0
          (fun j hj => hmin (j + 1) (by simp only [List.length_cons]; omega))
          (fun j hj => hfirst (j + 1) (by omega))
      · rw [if_neg (fun hlt => hc (PyVal.lt_val.mp hlt))]
        exact ih (fun i => xv (i + 1)) (fun i => fv (i + 1)) b0 s k
          (fun i y hi => hm (i + 1) y (by simpa using hi)) hk2 hkb
          (fun j hj => hmin (j + 1) (by simp only [List.length_cons]; omega))
          (fun j hj => hfirst (j + 1) (by omega))

lemma restartLoop_ok_inv (minimize : (List ℝ → Option (List (List ℝ))) → List ℝ →
      List (ℝ × ℝ) → Except Unit OptResult)
    (min_obj : List ℝ → Option (List (List ℝ))) (bs : List (ℝ × ℝ))
    (Q : List ℝ → Prop) (l : List (List ℝ)) :
    ∀ (b : PyVal) (s : Option (List ℝ)) (st : PyVal × Option (List ℝ)),
    (∀ x0 ∈ l, ∀ r, minimize min_obj x0 bs = .ok r → r.fval ≠ .nan → Q r.x) →
    restartLoop minimize min_obj bs l b s = .ok st →
    st.2 = s ∨ ∃ x, st.2 = some x ∧ Q x := by
  induction l with
  | nil =>
    intro b s st hm hloop
    rw [restartLoop_nil] at hloop
    left
    cases hloop
    rfl
  | cons x0 t ih =>
    intro b s st hm hloop
    cases hmz : minimize min_obj x0 bs with
    | error e =>
      rw [restartLoop_cons_error minimize min_obj bs x0 t b s e hmz] at hloop
      cases hloop
    | ok r =>
      rw [restartLoop_cons_ok minimize min_obj bs x0 t b s r.x r.fval hmz] at hloop
      by_cases hlt : PyVal.lt r.fval b
      · rw [if_pos hlt] at hloop
        have hQ : Q r.x := hm x0 (List.mem_cons_self x0 t) r hmz (PyVal.ne_nan_of_lt hlt)
        rcases ih r.fval (some r.x) st
            (fun y hy => hm y (List.mem_cons_of_mem x0 hy)) hloop with h1 | h2
        · exact Or.inr ⟨r.x, h1, hQ⟩
        · exact Or.inr h2
      · rw [if_neg hlt] at hloop
        exact ih b s st (fun y hy => hm y (List.mem_cons_of_mem x0 hy)) hloop

lemma restartLoop_some_stays (minimize : (List ℝ → Option (List (List ℝ))) → List ℝ →
      List (ℝ × ℝ) → Except Unit OptResult)
    (min_obj : List ℝ → Option (List (List ℝ))) (bs : List (ℝ × ℝ))
    (l : List (List ℝ)) :
    ∀ (b : PyVal) (x : List ℝ),
    (∀ x0 ∈ l, ∃ r, minimize min_obj x0 bs = .ok r) →
    ∃ b2 x2, restartLoop minimize min_obj bs l b (some x) = .ok (b2, some x2) := by
  induction l with
  | nil =>
    intro b x _
    exact ⟨b, x, restartLoop_nil minimize min_obj bs b (some x)⟩
  | cons x0 t ih =>
    intro b x hok
    obtain ⟨r, hr⟩ := hok x0 (List.mem_cons_self x0 t)
    rw [restartLoop_cons_ok minimize min_obj bs x0 t b (some x) r.x r.fval hr]
    by_cases hlt : PyVal.lt r.fval b
    · rw [if_pos hlt]
      exact ih r.fval r.x (fun y hy => hok y (List.mem_cons_of_mem x0 hy))
    · rw [if_neg hlt]
      exact ih b x (fun y hy => hok y (List.mem_cons_of_mem x0 hy))

lemma restartLoop_improves (minimize : (List ℝ → Option (List (List ℝ))) → List ℝ →
      List (ℝ × ℝ) → Except Unit OptResult)
    (min_obj : List ℝ → Option (List (List ℝ))) (bs : List (ℝ × ℝ))
    (l : List (List ℝ)) :
    ∀ (b0 : ℝ) (s : Option (List ℝ)),
    (∀ x0 ∈ l, ∃ r, minimize min_obj x0 bs = .ok r) →
    (∃ x0 ∈ l, ∃ r f, minimize min_obj x0 bs = .ok r ∧ r.fval = .val f ∧ f < b0) →
    ∃ b2 x2, restartLoop minimize min_obj bs l (.val b0) s = .ok (b2, some x2) := by
  induction l with
  | nil =>
    intro b0 s _ himp
    obtain ⟨x0, hx0, _⟩ := himp
    cases hx0
  | cons x0 t ih =>
    intro b0 s hok himp
    obtain ⟨r0, hr0⟩ := hok x0 (List.mem_cons_self x0 t)
    rw [restartLoop_cons_ok minimize min_obj bs x0 t (.val b0) s r0.x r0.fval hr0]
    by_cases hlt : PyVal.lt r0.fval (.val b0)
    · rw [if_pos hlt]
      exact restartLoop_some_stays minimize min_obj bs t r0.fval r0.x
        (fun y hy => hok y (List.mem_cons_of_mem x0 hy))
    · rw [if_neg hlt]
      obtain ⟨y, hy, r, f, hr, hf, hfb⟩ := himp
      rcases List.mem_cons.mp hy with hyx | hyt
      · subst hyx
        rw [hr0] at hr
        cases hr
        exfalso
        apply hlt
        rw [hf]
        exact PyVal.lt_val.mpr hfb
      · exact ih b0 s (fun z hz => hok z (List.mem_cons_of_mem x0 hz))
          ⟨y, hyt, r, f, hr, hf, hfb⟩

/-! ### Unfolding lemmas for the two entry points, and concrete surrogates -/

lemma floatMax_pos : 0 < floatMax := by
  unfold floatMax
  have h : (2:ℝ) ^ 971 < 2 ^ 1024 := by
    apply pow_lt_pow_right₀ one_lt_two
    norm_num
  linarith

lemma restartStarts_length (rand : ℕ → ℕ → ℝ) (dim : ℕ) :
    (restartStarts rand dim).length = n_restarts := by
  simp [restartStarts]

lemma expected_improvement_singleton (x : List ℝ) (X_obs : List (List ℝ))
    (Y_obs : List ℝ) (gpr : Surrogate) (xi : ℝ) (m0 : ℝ)
    (hmax : npMax (X_obs.map gpr.predictMean) = some m0) :
    expected_improvement [x] X_obs Y_obs gpr xi =
      some [if gpr.predictStd x = 0 then [0] else
        [eiFun (gpr.predictStd x) (gpr.predictMean x - m0 - xi)]] := by
  simp only [expected_improvement, hmax, List.map_cons, List.map_nil,
    List.length_cons, List.length_nil, List.zipWith_cons_cons,
    List.zipWith_nil_right, Nat.zero_add, eq_self_iff_true, if_true]

lemma generate_parameters_cold
    (acquisition : List (List ℝ) → List (List ℝ) → List ℝ → Surrogate →
      Option (List (List ℝ)))
    (X_obs : List (List ℝ)) (Y_obs : List ℝ) (bounds : List (ℝ × ℝ))
    (fit : List (List ℝ) → List ℝ → Surrogate)
    (minimize : (List ℝ → Option (List (List ℝ))) → List ℝ → List (ℝ × ℝ) →
      Except Unit OptResult)
    (rand : ℕ → ℕ → ℝ) (h : (X_obs.map List.length).sum = 0) :
    generate_parameters acquisition X_obs Y_obs bounds fit minimize rand
      = .ok ((List.range bounds.length).map (fun j => rand 0 j)) := by
  simp only [generate_parameters, h, eq_self_iff_true, if_true]

lemma generate_parameters_warm
    (acquisition : List (List ℝ) → List (List ℝ) → List ℝ → Surrogate →
      Option (List (List ℝ)))
    (X_obs : List (List ℝ)) (Y_obs : List ℝ) (bounds : List (ℝ × ℝ))
    (fit : List (List ℝ) → List ℝ → Surrogate)
    (minimize : (List ℝ → Option (List (List ℝ))) → List ℝ → List (ℝ × ℝ) →
      Except Unit OptResult)
    (rand : ℕ → ℕ → ℝ) (h : (X_obs.map List.length).sum ≠ 0) :
    generate_parameters acquisition X_obs Y_obs bounds fit minimize rand
      = match restartLoop minimize
            (gpMinObj acquisition X_obs Y_obs (fit X_obs Y_obs)) bounds
            (restartStarts rand (X_obs.headD []).length) (.val floatMax) none with
        | .error _ => .error .optimizerException
        | .ok (_, none) => .error .attributeError
        | .ok (_, some min_x) => .ok min_x := by
  simp only [generate_parameters, h, if_neg h, if_false]

/-- Surrogate with constant posterior mean `0` and constant posterior
standard deviation `1`, used to evaluate the theorems at concrete inputs. -/
noncomputable def constSurrogate : Surrogate := ⟨fun _ => 0, fun _ => 1⟩

/-- Surrogate whose posterior mean and standard deviation at a query point
both equal the point's first coordinate; it produces a batch mixing a zero
and a positive standard deviation without needing any case split. -/
noncomputable def headSurrogate : Surrogate := ⟨fun v => v.headD 0, fun v => v.headD 0⟩

/-! ### Claims about the acquisition scorer -/

/-- C10: the result of `expected_improvement` does not depend on its
`Y_obs` argument: with the candidate batch, observed inputs, fitted
surrogate and `xi` held fixed, any two values of `Y_obs` give identical
results, because the scorer reads only the surrogate's predictions and
never `Y_obs` itself. -/
theorem C10_ei_ignores_Y_obs (X X_obs : List (List ℝ)) (Y1 Y2 : List ℝ)
    (gpr : Surrogate) (xi : ℝ) :
    expected_improvement X X_obs Y1 gpr xi
      = expected_improvement X X_obs Y2 gpr xi := rfl

/-- C1 (amended): for a single-candidate batch `X = [x]` — the only batch
size on which the implementation returns at all, see the counterexample —
with `xi ≥ 0` and positive posterior deviation at `x`,
`expected_improvement` returns `imp * Phi(Z) + sigma * phi(Z)` where
`imp = mu - mu_sample_opt - xi`, `Z = imp / sigma`, `mu`/`sigma` are the
surrogate's posterior mean and standard deviation at `x`, and
`mu_sample_opt` is the maximum of the surrogate's predicted means at the
observed inputs `X_obs` (`Y_obs` is arbitrary and never read). -/
theorem C1_ei_closed_form (x : List ℝ) (X_obs : List (List ℝ)) (Y_obs : List ℝ)
    (gpr : Surrogate) (xi m0 : ℝ) (hxi : 0 ≤ xi)
    (hmax : npMax (X_obs.map gpr.predictMean) = some m0)
    (hs : 0 < gpr.predictStd x) :
    expected_improvement [x] X_obs Y_obs gpr xi =
      some [[(gpr.predictMean x - m0 - xi)
          * normCdf ((gpr.predictMean x - m0 - xi) / gpr.predictStd x)
        + gpr.predictStd x
          * normPdf ((gpr.predictMean x - m0 - xi) / gpr.predictStd x)]] := by
  rw [expected_improvement_singleton x X_obs Y_obs gpr xi m0 hmax,
    if_neg hs.ne']
  rfl

/-- Witness for C1: at `x = [0]`, `X_obs = [[0]]`, `Y_obs = [5]`, the
constant surrogate and `xi = 0` the hypotheses hold and the closed form is
returned. -/
theorem C1_ei_closed_form_witness :
    (0:ℝ) ≤ 0 ∧
    expected_improvement [[0]] [[0]] [5] constSurrogate 0 =
      some [[((0:ℝ) - 0 - 0) * normCdf (((0:ℝ) - 0 - 0) / 1)
        + 1 * normPdf (((0:ℝ) - 0 - 0) / 1)]] :=
  ⟨le_refl 0,
    C1_ei_closed_form [0] [[0]] [5] constSurrogate 0 0 (le_refl 0) rfl one_pos⟩

/-- Counterexample to C1 as stated: on the two-candidate batch
`X = [[0], [1]]` with everywhere-positive posterior deviation the claim
asserts the closed form is computed at each candidate, but the
implementation raises an `IndexError` — the `(2, 1)` boolean mask cannot
index the broadcast `(2, 2)` array — and returns no improvements at all. -/
theorem C1_counterexample :
    expected_improvement [[0], [1]] [[0]] [5] constSurrogate 0.01 = none := by
  simp [expected_improvement, npMax]

/-- C2 (amended): for a single-candidate batch — the only batch size on
which the implementation returns at all, see the counterexample for the
mixed batch — zero posterior deviation forces the returned improvement to
be exactly 0, whatever the posterior means, `xi` and the observations are,
and no division-by-zero error is surfaced: the call returns normally. -/
theorem C2_zero_sigma_forces_zero (x : List ℝ) (X_obs : List (List ℝ))
    (Y_obs : List ℝ) (gpr : Surrogate) (xi m0 : ℝ)
    (hmax : npMax (X_obs.map gpr.predictMean) = some m0)
    (hs : gpr.predictStd x = 0) :
    expected_improvement [x] X_obs Y_obs gpr xi = some [[0]] := by
  rw [expected_improvement_singleton x X_obs Y_obs gpr xi m0 hmax, if_pos hs]

/-- Witness for C2: the head surrogate has zero posterior deviation at
`[0]`, and the call returns exactly `0` there despite a large `xi`. -/
theorem C2_zero_sigma_forces_zero_witness :
    headSurrogate.predictStd [0] = 0 ∧
    expected_improvement [[0]] [[2]] [9] headSurrogate 7 = some [[0]] :=
  ⟨rfl, C2_zero_sigma_forces_zero [0] [[2]] [9] headSurrogate 7 2 rfl rfl⟩

/-- Counterexample to C2 as stated: on the batch `X = [[0], [1]]` the head
surrogate gives `sigma = [0, 1]` — a mix of zero and positive entries —
and the claim asserts only the zero entry is forced to 0; instead the
implementation raises an `IndexError` and returns nothing. -/
theorem C2_counterexample :
    expected_improvement [[0], [1]] [[1]] [0] headSurrogate 0.01 = none := by
  simp [expected_improvement, npMax]

/-- C6 (evaluation at the failing input): the interface promises one
improvement score per candidate, but already on the two-candidate batch
`X = [[0], [2]]` the call returns no length-2 result — it raises an
`IndexError` (the `(m, 1)` boolean mask does not match the `(m, m)`
broadcast of `ei` for any `m ≥ 2`). -/
theorem C6_batch_raises :
    expected_improvement [[0], [2]] [[0]] [3] constSurrogate 0.01 = none := by
  simp [expected_improvement, npMax]

/-- C9: expected improvement is monotonically non-increasing in the
exploration bias: for fixed batch, observations and surrogate (with
non-negative posterior deviations, as a standard deviation is) and
`0 ≤ xi1 ≤ xi2`, whenever both calls return, every improvement computed
with `xi2` is at most the corresponding one computed with `xi1`. -/
theorem C9_ei_antitone_in_xi (X X_obs : List (List ℝ)) (Y_obs : List ℝ)
    (gpr : Surrogate) (hstd : ∀ v, 0 ≤ gpr.predictStd v)
    (xi1 xi2 : ℝ) (h1 : 0 ≤ xi1) (h12 : xi1 ≤ xi2) (e1 e2 : List (List ℝ))
    (hE1 : expected_improvement X X_obs Y_obs gpr xi1 = some e1)
    (hE2 : expected_improvement X X_obs Y_obs gpr xi2 = some e2) :
    List.Forall₂ (List.Forall₂ (fun a b => b ≤ a)) e1 e2 := by
  obtain ⟨m0, hmax⟩ : ∃ m0, npMax (X_obs.map gpr.predictMean) = some m0 := by
    cases hmax : npMax (X_obs.map gpr.predictMean) with
    | none =>
      exfalso
      simp only [expected_improvement, hmax] at hE1
      cases hE1
    | some m0 => exact ⟨m0, rfl⟩
  have hlen : X.length = 1 := by
    by_contra hne
    simp only [expected_improvement, hmax, if_neg hne] at hE1
    cases hE1
  obtain ⟨x, rfl⟩ := List.length_eq_one.mp hlen
  rw [expected_improvement_singleton x X_obs Y_obs gpr xi1 m0 hmax] at hE1
  rw [expected_improvement_singleton x X_obs Y_obs gpr xi2 m0 hmax] at hE2
  have he1 := (Option.some.inj hE1).symm
  have he2 := (Option.some.inj hE2).symm
  subst he1
  subst he2
  by_cases hs : gpr.predictStd x = 0
  · rw [if_pos hs, if_pos hs]
    exact List.Forall₂.cons (List.Forall₂.cons le_rfl List.Forall₂.nil)
      List.Forall₂.nil
  · rw [if_neg hs, if_neg hs]
    have hspos : 0 < gpr.predictStd x := lt_of_le_of_ne (hstd x) (Ne.symm hs)
    have harg : gpr.predictMean x - m0 - xi2 ≤ gpr.predictMean x - m0 - xi1 := by
      linarith
    exact List.Forall₂.cons
      (List.Forall₂.cons (eiFun_monotone (gpr.predictStd x) hspos harg)
        List.Forall₂.nil) List.Forall₂.nil

/-- Witness for C9: with the constant surrogate, a singleton batch,
`xi1 = 0` and `xi2 = 1`, the improvement at `xi2` is at most the one at
`xi1`. -/
theorem C9_ei_antitone_in_xi_witness :
    List.Forall₂ (List.Forall₂ (fun a b => b ≤ a))
      [[eiFun 1 (0 - 0 - 0)]] [[eiFun 1 (0 - 0 - 1)]] := by
  have hne : constSurrogate.predictStd [(0:ℝ)] ≠ 0 := one_ne_zero
  apply C9_ei_antitone_in_xi [[0]] [[0]] [] constSurrogate
    (fun v => zero_le_one) 0 1 le_rfl zero_le_one
  · rw [expected_improvement_singleton [0] [[0]] [] constSurrogate 0 0 rfl,
      if_neg hne]
    rfl
  · rw [expected_improvement_singleton [0] [[0]] [] constSurrogate 1 0 rfl,
      if_neg hne]
    rfl

/-! ### Claims about the candidate proposer -/

/-- C5: cold start — with an empty observation set no surrogate is fit and
no acquisition function is evaluated (the result is identical whatever
acquisition function, fitting procedure and optimizer are supplied), and
the returned location consists of the per-dimension uniform draws, each
lying within its corresponding bound (using the `[low, high)` range
contract of `np.random.uniform` as a hypothesis on the random source). -/
theorem C5_cold_start
    (acquisition acq2 : List (List ℝ) → List (List ℝ) → List ℝ → Surrogate →
      Option (List (List ℝ)))
    (Y_obs : List ℝ) (bounds : List (ℝ × ℝ))
    (fit fit2 : List (List ℝ) → List ℝ → Surrogate)
    (minimize mz2 : (List ℝ → Option (List (List ℝ))) → List ℝ → List (ℝ × ℝ) →
      Except Unit OptResult)
    (rand : ℕ → ℕ → ℝ)
    (hrand : ∀ j (h : j < bounds.length),
      (bounds.get ⟨j, h⟩).1 ≤ rand 0 j ∧ rand 0 j < (bounds.get ⟨j, h⟩).2) :
    generate_parameters acquisition [] Y_obs bounds fit minimize rand
        = .ok ((List.range bounds.length).map (fun j => rand 0 j))
      ∧ generate_parameters acquisition [] Y_obs bounds fit minimize rand
        = generate_parameters acq2 [] Y_obs bounds fit2 mz2 rand
      ∧ InBounds bounds ((List.range bounds.length).map (fun j => rand 0 j)) := by
  have hcold := generate_parameters_cold acquisition [] Y_obs bounds fit minimize
    rand rfl
  have hcold2 := generate_parameters_cold acq2 [] Y_obs bounds fit2 mz2 rand rfl
  refine ⟨hcold, hcold.trans hcold2.symm, ?_⟩
  apply List.forall₂_of_length_eq_of_get
  · simp
  · intro i h1 h2
    have hi : i < bounds.length := h1
    have h := hrand i hi
    simp only [List.get_eq_getElem, List.getElem_map, List.getElem_range]
    simp only [List.get_eq_getElem] at h
    exact ⟨h.1, h.2.le⟩

/-- Witness for C5: two-dimensional box `[-5, 5] × [-5, 5]`, random source
constantly `0`; the cold-start call returns `[0, 0]`, which is in bounds. -/
theorem C5_cold_start_witness :
    generate_parameters (fun _ _ _ _ => none) [] [] [(-5, 5), (-5, 5)]
        (fun _ _ => constSurrogate) (fun _ _ _ => .error ()) (fun _ _ => 0)
        = .ok [0, 0]
      ∧ InBounds [(-5, 5), (-5, 5)] [0, 0] := by
  have h := C5_cold_start (fun _ _ _ _ => none) (fun _ _ _ _ => none) []
    [(-5, 5), (-5, 5)] (fun _ _ => constSurrogate) (fun _ _ => constSurrogate)
    (fun _ _ _ => .error ()) (fun _ _ _ => .error ()) (fun _ _ => 0)
    (by
      intro j hj
      have hj2 : j < 2 := by simpa using hj
      interval_cases j <;> constructor <;> norm_num)
  obtain ⟨h1, _, h3⟩ := h
  exact ⟨h1, h3⟩

/-- C4: with a non-empty observation set and valid bounds, assuming the
local optimizer honours its box constraints (every point it reports lies
in `bounds`), any candidate location `generate_parameters` returns lies
within `bounds` in every dimension. -/
theorem C4_within_bounds
    (acquisition : List (List ℝ) → List (List ℝ) → List ℝ → Surrogate →
      Option (List (List ℝ)))
    (X_obs : List (List ℝ)) (Y_obs : List ℝ) (bounds : List (ℝ × ℝ))
    (fit : List (List ℝ) → List ℝ → Surrogate)
    (minimize : (List ℝ → Option (List (List ℝ))) → List ℝ → List (ℝ × ℝ) →
      Except Unit OptResult)
    (rand : ℕ → ℕ → ℝ)
    (hobs : (X_obs.map List.length).sum ≠ 0)
    (hb : ∀ p ∈ bounds, p.1 ≤ p.2)
    (hmin : ∀ obj x0 r, minimize obj x0 bounds = .ok r → InBounds bounds r.x)
    (x : List ℝ)
    (hres : generate_parameters acquisition X_obs Y_obs bounds fit minimize rand
      = .ok x) :
    InBounds bounds x := by
  rw [generate_parameters_warm acquisition X_obs Y_obs bounds fit minimize rand
    hobs] at hres
  cases hloop : restartLoop minimize
      (gpMinObj acquisition X_obs Y_obs (fit X_obs Y_obs)) bounds
      (restartStarts rand (X_obs.headD []).length) (.val floatMax) none with
  | error e =>
    rw [hloop] at hres
    simp at hres
  | ok st =>
    rw [hloop] at hres
    obtain ⟨b2, s2⟩ := st
    cases s2 with
    | none => simp at hres
    | some y =>
      have hyx : y = x := by simpa using hres
      subst hyx
      have hinv := restartLoop_ok_inv minimize
        (gpMinObj acquisition X_obs Y_obs (fit X_obs Y_obs)) bounds
        (InBounds bounds) (restartStarts rand (X_obs.headD []).length)
        (.val floatMax) none (b2, some y)
        (fun x0 _ r hr _ => hmin _ x0 r hr) hloop
      rcases hinv with h1 | ⟨z, hz, hQ⟩
      · simp at h1
      · have hyz : y = z := by simpa using hz
        rw [hyz]
        exact hQ

/-- Witness for C4: one observation, bounds `[(0, 1)]`, an optimizer that
always reports the in-bounds point `[0]`; the returned candidate `[0]` is
in bounds. -/
theorem C4_within_bounds_witness : InBounds [((0:ℝ), 1)] [(0:ℝ)] := by
  apply C4_within_bounds (fun _ _ _ _ => none) [[0]] [0] [(0, 1)]
    (fun _ _ => constSurrogate) (fun _ _ _ => .ok ⟨[0], .val 0⟩) (fun _ _ => 0)
    (by simp)
    (by
      intro p hp
      simp only [List.mem_singleton] at hp
      subst hp
      exact zero_le_one)
    (by
      intro obj x0 r hr
      have hr2 : (⟨[0], .val 0⟩ : OptResult) = r := by
        simpa using hr
      rw [← hr2]
      exact List.Forall₂.cons ⟨le_rfl, zero_le_one⟩ List.Forall₂.nil)
    [0]
  rw [generate_parameters_warm (fun _ _ _ _ => none) [[0]] [0] [(0, 1)]
    (fun _ _ => constSurrogate) (fun _ _ _ => .ok ⟨[0], .val 0⟩) (fun _ _ => 0)
    (by simp)]
  simp only [List.headD_cons, List.length_singleton]
  rw [restartLoop_firstMin (fun _ _ _ => .ok ⟨[0], .val 0⟩)
    (gpMinObj (fun _ _ _ _ => none) [[0]] [0] (constSurrogate)) [(0, 1)]
    (restartStarts (fun _ _ => 0) 1) (fun _ => [0]) (fun _ => 0) floatMax none 0
    (fun i x0 _ => rfl)
    (by rw [restartStarts_length]; norm_num [n_restarts])
    floatMax_pos
    (fun j _ => le_rfl)
    (fun j hj => absurd hj (Nat.not_lt_zero j))]

lemma restartStarts_cons (rand : ℕ → ℕ → ℝ) (dim : ℕ) :
    restartStarts rand dim = ((List.range dim).map (fun j => rand 0 j))
      :: ((List.range 24).map
        (fun i => (List.range dim).map (fun j => rand (i + 1) j))) := by
  unfold restartStarts n_restarts
  rw [show (25:ℕ) = 24 + 1 from rfl, List.range_succ_eq_map]
  simp [List.map_map, Function.comp, Nat.succ_eq_add_one]

/-- C3 (amended): when every restart fails to improve on the initial
sentinel `sys.float_info.max`, the call does fail — an arbitrary or
uninitialized location is never returned — but the error that reaches the
caller is the unguarded Python `AttributeError` raised by
`None.tolist()`, not a purpose-built "no candidate found" signal. -/
theorem C3_all_restarts_fail
    (acquisition : List (List ℝ) → List (List ℝ) → List ℝ → Surrogate →
      Option (List (List ℝ)))
    (X_obs : List (List ℝ)) (Y_obs : List ℝ) (bounds : List (ℝ × ℝ))
    (fit : List (List ℝ) → List ℝ → Surrogate)
    (minimize : (List ℝ → Option (List (List ℝ))) → List ℝ → List (ℝ × ℝ) →
      Except Unit OptResult)
    (rand : ℕ → ℕ → ℝ)
    (hobs : (X_obs.map List.length).sum ≠ 0)
    (hfail : ∀ obj x0, ∃ r, minimize obj x0 bounds = .ok r
      ∧ ¬ PyVal.lt r.fval (.val floatMax)) :
    generate_parameters acquisition X_obs Y_obs bounds fit minimize rand
      = .error GPError.attributeError := by
  rw [generate_parameters_warm acquisition X_obs Y_obs bounds fit minimize rand
    hobs]
  rw [restartLoop_noImprove minimize
    (gpMinObj acquisition X_obs Y_obs (fit X_obs Y_obs)) bounds
    (restartStarts rand (X_obs.headD []).length) (.val floatMax) none
    (fun x0 _ => hfail _ x0)]

/-- Witness for C3: an optimizer that always reports the sentinel value
itself never improves on it, so the call ends in the `AttributeError`. -/
theorem C3_all_restarts_fail_witness :
    generate_parameters (fun _ _ _ _ => none) [[1]] [1] [(0, 2)]
        (fun _ _ => constSurrogate) (fun _ _ _ => .ok ⟨[2], .val floatMax⟩)
        (fun _ _ => 1)
      = .error GPError.attributeError :=
  C3_all_restarts_fail (fun _ _ _ _ => none) [[1]] [1] [(0, 2)]
    (fun _ _ => constSurrogate) (fun _ _ _ => .ok ⟨[2], .val floatMax⟩)
    (fun _ _ => 1) (by simp)
    (fun obj x0 => ⟨⟨[2], .val floatMax⟩, rfl,
      fun h => absurd (PyVal.lt_val.mp h) (lt_irrefl floatMax)⟩)

/-- Counterexample to C3 as stated: with every restart failing to improve
the sentinel, the caller does not receive the explicit "no candidate
found" signal the claim promises — the call dies with the accidental
`AttributeError` from `None.tolist()` instead. -/
theorem C3_counterexample :
    generate_parameters (fun _ _ _ _ => none) [[0]] [0] [(0, 1)]
        (fun _ _ => constSurrogate) (fun _ _ _ => .ok ⟨[5], .val floatMax⟩)
        (fun _ _ => 0)
        ≠ .error GPError.noCandidateFound
      ∧ generate_parameters (fun _ _ _ _ => none) [[0]] [0] [(0, 1)]
        (fun _ _ => constSurrogate) (fun _ _ _ => .ok ⟨[5], .val floatMax⟩)
        (fun _ _ => 0)
        = .error GPError.attributeError := by
  have heq : generate_parameters (fun _ _ _ _ => none) [[0]] [0] [(0, 1)]
      (fun _ _ => constSurrogate) (fun _ _ _ => .ok ⟨[5], .val floatMax⟩)
      (fun _ _ => 0)
      = .error GPError.attributeError := by
    rw [generate_parameters_warm (fun _ _ _ _ => none) [[0]] [0] [(0, 1)]
      (fun _ _ => constSurrogate) (fun _ _ _ => .ok ⟨[5], .val floatMax⟩)
      (fun _ _ => 0) (by simp)]
    rw [restartLoop_noImprove (fun _ _ _ => .ok ⟨[5], .val floatMax⟩)
      (gpMinObj (fun _ _ _ _ => none) [[0]] [0]
        ((fun _ _ => constSurrogate) [[0]] ([0] : List ℝ))) [(0, 1)]
      (restartStarts (fun _ _ => 0) ([[0]].headD ([] : List ℝ)).length)
      (.val floatMax) none
      (fun x0 _ => ⟨⟨[5], .val floatMax⟩, rfl,
        fun h => absurd (PyVal.lt_val.mp h) (lt_irrefl floatMax)⟩)]
  refine ⟨?_, heq⟩
  rw [heq]
  intro hc
  exact GPError.noConfusion (Except.error.inj hc)

/-- C8: with a non-empty observation set, exactly 25 starting points are
generated and locally optimized; when every `minimize` call returns a
finite objective value, the candidate returned is the one from the first
restart attaining the minimum objective value across all 25 restarts
(strict improvement — ties keep the first-found), provided that minimum
beats the `sys.float_info.max` sentinel. -/
theorem C8_restarts_first_argmin
    (acquisition : List (List ℝ) → List (List ℝ) → List ℝ → Surrogate →
      Option (List (List ℝ)))
    (X_obs : List (List ℝ)) (Y_obs : List ℝ) (bounds : List (ℝ × ℝ))
    (fit : List (List ℝ) → List ℝ → Surrogate)
    (minimize : (List ℝ → Option (List (List ℝ))) → List ℝ → List (ℝ × ℝ) →
      Except Unit OptResult)
    (rand : ℕ → ℕ → ℝ) (xv : ℕ → List ℝ) (fv : ℕ → ℝ) (k : ℕ)
    (hobs : (X_obs.map List.length).sum ≠ 0)
    (hmz : ∀ obj i x0,
      (restartStarts rand (X_obs.headD []).length)[i]? = some x0 →
      minimize obj x0 bounds = .ok ⟨xv i, .val (fv i)⟩)
    (hk : k < n_restarts) (hkb : fv k < floatMax)
    (hmin : ∀ j, j < n_restarts → fv k ≤ fv j)
    (hfirst : ∀ j, j < k → fv k < fv j) :
    generate_parameters acquisition X_obs Y_obs bounds fit minimize rand
        = .ok (xv k)
      ∧ (restartStarts rand (X_obs.headD []).length).length = 25 := by
  constructor
  · rw [generate_parameters_warm acquisition X_obs Y_obs bounds fit minimize
      rand hobs]
    rw [restartLoop_firstMin minimize
      (gpMinObj acquisition X_obs Y_obs (fit X_obs Y_obs)) bounds
      (restartStarts rand (X_obs.headD []).length) xv fv floatMax none k
      (hmz _)
      (by rw [restartStarts_length]; exact hk) hkb
      (fun j hj => hmin j (by rwa [restartStarts_length] at hj))
      hfirst]
  · rw [restartStarts_length]
    rfl

/-- Witness for C8: the optimizer reports objective value `i` at the start
of restart `i`; restart `0` is the unique minimum, and its point `[0]` is
returned; the starts list has length 25. -/
theorem C8_restarts_first_argmin_witness :
    generate_parameters (fun _ _ _ _ => none) [[3]] [3] [(0, 30)]
        (fun _ _ => constSurrogate) (fun _ x0 _ => .ok ⟨x0, .val (x0.headD 0)⟩)
        (fun i _ => (i : ℝ))
      = .ok [((0:ℕ) : ℝ)]
    ∧ (restartStarts (fun i _ => ((i:ℕ) : ℝ)) 1).length = 25 := by
  refine C8_restarts_first_argmin (fun _ _ _ _ => none) [[3]] [3] [(0, 30)]
    (fun _ _ => constSurrogate) (fun _ x0 _ => .ok ⟨x0, .val (x0.headD 0)⟩)
    (fun i _ => (i : ℝ)) (fun i => [(i:ℝ)]) (fun i => ((i:ℕ) : ℝ)) 0
    (by simp) ?_ (by norm_num [n_restarts])
    (by simpa using floatMax_pos)
    (fun j _ => by simpa using (Nat.cast_nonneg j : (0:ℝ) ≤ (j:ℝ)))
    (fun j hj => absurd hj (Nat.not_lt_zero j))
  intro obj i x0 hi
  have hx0 : x0 = [(i:ℝ)] := by
    rcases Nat.lt_or_ge i 25 with h25 | h25
    · rw [restartStarts] at hi
      rw [List.getElem?_map] at hi
      rw [List.getElem?_range (by simpa [n_restarts] using h25)] at hi
      simp [(by decide : List.range 1 = [0])] at hi
      exact hi.symm
    · rw [restartStarts] at hi
      rw [List.getElem?_eq_none (by simpa [n_restarts] using h25)] at hi
      cases hi
  subst hx0
  rfl

/-- Counterexample to C7 as stated: the optimizer raises on the very first
restart (and would succeed on the remaining 24); the claim promises the
failing restart is skipped and a candidate from a successful restart is
still returned, but the exception propagates — there is no `try`/`except`
around the `minimize` call — and the whole proposal aborts. -/
theorem C7_counterexample :
    generate_parameters (fun _ _ _ _ => none) [[0]] [0] [(0, 30)]
        (fun _ _ => constSurrogate)
        (fun _ x0 _ => if x0.headD 1 = 0 then .error () else .ok ⟨x0, .val 0⟩)
        (fun i _ => (i : ℝ))
      = .error GPError.optimizerException := by
  rw [generate_parameters_warm (fun _ _ _ _ => none) [[0]] [0] [(0, 30)]
    (fun _ _ => constSurrogate)
    (fun _ x0 _ => if x0.headD 1 = 0 then .error () else .ok ⟨x0, .val 0⟩)
    (fun i _ => (i : ℝ)) (by simp)]
  simp only [List.headD_cons, List.length_singleton]
  rw [restartStarts_cons]
  rw [restartLoop_cons_error _ _ _ _ _ _ _ ()]
  simp [(by decide : List.range 1 = [0])]

/-- C7 (amended): an optimizer failure that manifests as a NaN objective
value is indeed skipped for the best-so-far comparison and is not fatal:
if every `minimize` call returns, one restart reports NaN and some restart
reports a finite value improving the sentinel, then a candidate is still
returned, and it comes from a restart whose objective was not NaN.  An
optimizer failure that manifests as a raised exception, however, aborts
the whole proposal (see the counterexample). -/
theorem C7_nan_restart_skipped
    (acquisition : List (List ℝ) → List (List ℝ) → List ℝ → Surrogate →
      Option (List (List ℝ)))
    (X_obs : List (List ℝ)) (Y_obs : List ℝ) (bounds : List (ℝ × ℝ))
    (fit : List (List ℝ) → List ℝ → Surrogate)
    (minimize : (List ℝ → Option (List (List ℝ))) → List ℝ → List (ℝ × ℝ) →
      Except Unit OptResult)
    (rand : ℕ → ℕ → ℝ) (xv : ℕ → List ℝ) (pv : ℕ → PyVal)
    (hobs : (X_obs.map List.length).sum ≠ 0)
    (hmz : ∀ obj i x0,
      (restartStarts rand (X_obs.headD []).length)[i]? = some x0 →
      minimize obj x0 bounds = .ok ⟨xv i, pv i⟩)
    (k : ℕ) (hk : k < n_restarts) (hknan : pv k = .nan)
    (j : ℕ) (hj : j < n_restarts) (f : ℝ) (hjf : pv j = .val f)
    (hjlt : f < floatMax) :
    ∃ x, generate_parameters acquisition X_obs Y_obs bounds fit minimize rand
        = .ok x
      ∧ ∃ i, i < n_restarts ∧ x = xv i ∧ pv i ≠ .nan := by
  rw [generate_parameters_warm acquisition X_obs Y_obs bounds fit minimize rand
    hobs]
  have hLlen : (restartStarts rand (X_obs.headD []).length).length
      = n_restarts := restartStarts_length _ _
  have htotal : ∀ x0 ∈ restartStarts rand (X_obs.headD []).length,
      ∃ r, minimize (gpMinObj acquisition X_obs Y_obs (fit X_obs Y_obs)) x0
        bounds = .ok r := by
    intro y hy
    obtain ⟨i, hi⟩ := List.mem_iff_getElem?.mp hy
    exact ⟨⟨xv i, pv i⟩, hmz _ i y hi⟩
  have hjlen : j < (restartStarts rand (X_obs.headD []).length).length := by
    rw [hLlen]
    exact hj
  have himp : ∃ x0 ∈ restartStarts rand (X_obs.headD []).length, ∃ r f2,
      minimize (gpMinObj acquisition X_obs Y_obs (fit X_obs Y_obs)) x0 bounds
        = .ok r ∧ r.fval = .val f2 ∧ f2 < floatMax := by
    refine ⟨(restartStarts rand (X_obs.headD []).length).get ⟨j, hjlen⟩,
      List.get_mem _ _ hjlen, ⟨xv j, pv j⟩, f, ?_, hjf, hjlt⟩
    apply hmz
    rw [List.get_eq_getElem]
    exact List.getElem?_eq_getElem hjlen
  obtain ⟨b2, x2, hloop⟩ := restartLoop_improves minimize
    (gpMinObj acquisition X_obs Y_obs (fit X_obs Y_obs)) bounds
    (restartStarts rand (X_obs.headD []).length) floatMax none htotal himp
  rw [hloop]
  refine ⟨x2, rfl, ?_⟩
  have hinv := restartLoop_ok_inv minimize
    (gpMinObj acquisition X_obs Y_obs (fit X_obs Y_obs)) bounds
    (fun x => ∃ i, i < n_restarts ∧ x = xv i ∧ pv i ≠ .nan)
    (restartStarts rand (X_obs.headD []).length)
    (.val floatMax) none (b2, some x2) ?_ hloop
  · rcases hinv with h1 | ⟨z, hz, hQ⟩
    · simp at h1
    · have hx2z : x2 = z := by simpa using hz
      rw [hx2z]
      exact hQ
  · intro x0 hx0 r hr hnan
    obtain ⟨i, hi⟩ := List.mem_iff_getElem?.mp hx0
    have hcall := hmz (gpMinObj acquisition X_obs Y_obs (fit X_obs Y_obs)) i
      x0 hi
    rw [hcall] at hr
    have hri : (⟨xv i, pv i⟩ : OptResult) = r := by
      simpa using hr
    have hilen : i < (restartStarts rand (X_obs.headD []).length).length :=
      (List.getElem?_eq_some.mp hi).1
    refine ⟨i, ?_, ?_, ?_⟩
    · rw [← hLlen]
      exact hilen
    · rw [← hri]
    · rw [← hri] at hnan
      exact hnan

/-- Witness for C7: restart 0 reports a NaN objective and is skipped; the
other restarts report 0, so a candidate from a non-NaN restart is
returned. -/
theorem C7_nan_restart_skipped_witness :
    ∃ x, generate_parameters (fun _ _ _ _ => none) [[0]] [0] [(0, 30)]
        (fun _ _ => constSurrogate)
        (fun _ x0 _ => .ok ⟨x0, if x0.headD 1 = 0 then .nan else .val 0⟩)
        (fun i _ => (i : ℝ))
        = .ok x
      ∧ ∃ i, i < n_restarts ∧ x = [(i:ℝ)]
        ∧ (if i = 0 then PyVal.nan else .val 0) ≠ .nan := by
  refine C7_nan_restart_skipped (fun _ _ _ _ => none) [[0]] [0] [(0, 30)]
    (fun _ _ => constSurrogate)
    (fun _ x0 _ => .ok ⟨x0, if x0.headD 1 = 0 then .nan else .val 0⟩)
    (fun i _ => (i : ℝ)) (fun i => [(i:ℝ)])
    (fun i => if i = 0 then PyVal.nan else .val 0)
    (by simp) ?_ 0 (by norm_num [n_restarts]) rfl 1 (by norm_num [n_restarts])
    0 rfl floatMax_pos
  intro obj i x0 hi
  have hx0 : x0 = [(i:ℝ)] := by
    rcases Nat.lt_or_ge i 25 with h25 | h25
    · rw [restartStarts] at hi
      rw [List.getElem?_map] at hi
      rw [List.getElem?_range (by simpa [n_restarts] using h25)] at hi
      simp [(by decide : List.range 1 = [0])] at hi
      exact hi.symm
    · rw [restartStarts] at hi
      rw [List.getElem?_eq_none (by simpa [n_restarts] using h25)] at hi
      cases hi
  subst hx0
  by_cases h0 : i = 0
  · subst h0
    simp
  · have hcast : ¬ ((i:ℝ) = 0) := fun hc => h0 (Nat.cast_eq_zero.mp hc)
    show Except.ok (⟨[(i:ℝ)], if ([(i:ℝ)].headD 1) = 0 then PyVal.nan
        else .val 0⟩ : OptResult)
      = Except.ok (⟨[(i:ℝ)], if i = 0 then PyVal.nan else .val 0⟩ : OptResult)
    rw [if_neg h0, List.headD_cons, if_neg hcast]
